import Mathlib

/-!
# Verification of the imp.graph force-graph core

Shallow embedding of the force-graph rendering core
(`src/rs/src/components/force_graph/`): the zoom-dependent scale resolver
(`scale.rs`), the view transform and interaction handlers (`component.rs`,
`state.rs`), the ambient particle field (`particles.rs`), the node render
pass (`render.rs`), and the hover-highlight state machine (`state.rs`).

Numeric values that the Rust code holds in `f64` are embedded as rationals
(`ℚ`) where only field operations and comparisons occur, extended with
signed infinities (`Xq`) where the code uses `f64::INFINITY`, and as reals
(`ℝ`) in the highlight engine, whose update factors are genuine
exponentials.  A Rust `f64::clamp` with an invalid range aborts, so
`ScaleBehavior.apply` returns an `Option`, `none` marking the abort.
HashMaps keyed by node handles are embedded as a `Finset ℕ` of present
keys together with a value function `ℕ → ℝ`; lookups default to `0`
outside the key set, exactly as the Rust `get(..).copied().unwrap_or(0.0)`.
-/

namespace ForceGraph

/-! ## Extended rationals: the finite/±∞ fragment of `f64` used by `scale.rs` -/

/-- Extended rational: a finite value, `f64::INFINITY` or `f64::NEG_INFINITY`,
the values `ScaleBehavior::Clamped` bounds may take. -/
inductive Xq where
  | ninf : Xq
  | fin (q : ℚ) : Xq
  | pinf : Xq
deriving DecidableEq

/-- Boolean order `<=` on extended rationals (total order, no NaN involved). -/
def Xq.ble : Xq → Xq → Bool
  | .ninf, _ => true
  | _, .pinf => true
  | .fin a, .fin b => decide (a ≤ b)
  | .pinf, .fin _ => false
  | .pinf, .ninf => false
  | .fin _, .ninf => false

/-- Boolean strict order `<` on extended rationals. -/
def Xq.blt : Xq → Xq → Bool
  | .ninf, .ninf => false
  | .ninf, _ => true
  | .fin a, .fin b => decide (a < b)
  | .fin _, .pinf => true
  | .fin _, .ninf => false
  | .pinf, _ => false

/-- Division by a (positive) zoom factor, as in `min_screen / k`. -/
def Xq.divPos : Xq → ℚ → Xq
  | .ninf, _ => .ninf
  | .pinf, _ => .pinf
  | .fin q, k => .fin (q / k)

/-- Multiplication by a (positive) zoom factor: world size times `k` is the
drawn screen size. -/
def Xq.mulPos : Xq → ℚ → Xq
  | .ninf, _ => .ninf
  | .pinf, _ => .pinf
  | .fin q, k => .fin (q * k)

/-- Body of `f64::clamp` once the `min <= max` assertion has passed:
`if self < min { min } else if self > max { max } else { self }`. -/
def Xq.clampX (v mn mx : Xq) : Xq :=
  if v.blt mn then mn else if mx.blt v then mx else v

/-! ## `scale.rs`: `ScaleBehavior` and its `apply` -/

/-- The `ScaleBehavior` enum from `scale.rs`: how a visual property scales with zoom. -/
inductive ScaleBehavior where
  | world
  | screen
  | clamped (min_screen max_screen : Xq)

/-- Embedding of `ScaleBehavior::apply(base, k)`.  The `Clamped` arm computes
`min_screen / k` and `max_screen / k` and clamps `base` into that range;
`f64::clamp` aborts when `min > max`, modeled here as `none`. -/
def ScaleBehavior.apply : ScaleBehavior → ℚ → ℚ → Option Xq
  | .world, base, _ => some (.fin base)
  | .screen, base, k => some (.fin (base / k))
  | .clamped mn mx, base, k =>
    let min_world := mn.divPos k
    let max_world := mx.divPos k
    if min_world.ble max_world then some (Xq.clampX (.fin base) min_world max_world)
    else none

/-! ## `component.rs` / `state.rs`: view transform and interaction handlers

The hover update that `on_mousemove` performs on the highlight engine acts
on state modeled separately below (`HighlightState`); the definitions here
carry the fields those handlers read or write on the transform, the drag
and pan gesture trackers, and the node positions. -/

/-- The `ViewTransform` struct from `state.rs`: pan translation and zoom factor. -/
structure ViewTransform where
  x : ℚ
  y : ℚ
  k : ℚ

/-- The `DragState` struct from `state.rs`. -/
structure DragState where
  active : Bool
  node_idx : Option ℕ
  start_x : ℚ
  start_y : ℚ
  node_start_x : ℚ
  node_start_y : ℚ

/-- The `PanState` struct from `state.rs`. -/
structure PanState where
  active : Bool
  start_x : ℚ
  start_y : ℚ
  transform_start_x : ℚ
  transform_start_y : ℚ

/-- The interaction-relevant part of `ForceGraphState` plus the node
positions the drag handler mutates. -/
structure GraphView where
  transform : ViewTransform
  drag : DragState
  pan : PanState
  nodes : List (ℚ × ℚ)

/-- The transform built by `ForceGraphState::new_with_colors`:
`x = width/2`, `y = height/2`, `k = 1.0`. -/
def initTransform (width height : ℚ) : ViewTransform :=
  { x := width / 2, y := height / 2, k := 1 }

/-- Rust `f64::clamp` on plain rationals (bounds here are the constants
`0.1` and `10.0`, so the `min <= max` assertion always passes). -/
def clampQ (v lo hi : ℚ) : ℚ :=
  if v < lo then lo else if hi < v then hi else v

/-- The `on_wheel` handler from `component.rs`: zoom about the cursor with
the new zoom factor clamped to `[0.1, 10.0]`. -/
def onWheel (g : GraphView) (x y delta_y : ℚ) : GraphView :=
  let factor : ℚ := if 0 < delta_y then 0.9 else 1.1
  let new_k := clampQ (g.transform.k * factor) 0.1 10
  let ratio := new_k / g.transform.k
  { g with transform :=
      { x := x - (x - g.transform.x) * ratio
        y := y - (y - g.transform.y) * ratio
        k := new_k } }

/-- The `on_mousedown` handler: start a node drag when the cursor hits a
node (`hit` is the result of `node_at_position`), otherwise start a pan. -/
def onMouseDown (g : GraphView) (x y : ℚ) (hit : Option ℕ) : GraphView :=
  match hit with
  | some idx =>
    let p := g.nodes.getD idx (0, 0)
    { g with drag :=
        { active := true, node_idx := some idx, start_x := x, start_y := y
          node_start_x := p.1, node_start_y := p.2 } }
  | none =>
    { g with pan :=
        { active := true, start_x := x, start_y := y
          transform_start_x := g.transform.x, transform_start_y := g.transform.y } }

/-- The drag/pan part of the `on_mousemove` handler: while dragging, move
the dragged node in world coordinates; while panning, translate the
transform.  (When not dragging it also re-resolves the hover, which only
touches the highlight engine.) -/
def onMouseMove (g : GraphView) (x y : ℚ) : GraphView :=
  if g.drag.active then
    match g.drag.node_idx with
    | some idx =>
      let dx := (x - g.drag.start_x) / g.transform.k
      let dy := (y - g.drag.start_y) / g.transform.k
      { g with nodes := g.nodes.set idx (g.drag.node_start_x + dx, g.drag.node_start_y + dy) }
    | none => g
  else if g.pan.active then
    { g with transform :=
        { g.transform with
          x := g.pan.transform_start_x + (x - g.pan.start_x)
          y := g.pan.transform_start_y + (y - g.pan.start_y) } }
  else g

/-- Effect of the `on_mouseup` handler on this state (it also re-anchors
the dragged node, which only flips a physics flag). -/
def onMouseUp (g : GraphView) : GraphView :=
  { g with drag := { g.drag with active := false, node_idx := none }
           pan := { g.pan with active := false } }

/-! ## `particles.rs`: the ambient particle field -/

/-- A single floating particle (`Particle` in `particles.rs`). -/
structure Particle where
  x : ℚ
  y : ℚ
  vx : ℚ
  vy : ℚ
  size : ℚ
  alpha : ℚ
  phase : ℚ

/-- The `ParticleSystem` struct from `particles.rs`. -/
structure ParticleSystem where
  particles : List Particle
  width : ℚ
  height : ℚ

/-- Embedding of `ParticleSystem::resize(width, height)`: rescale every particle
position by `new/old` in each axis, then store the new bounds. -/
def ParticleSystem.resize (ps : ParticleSystem) (width height : ℚ) : ParticleSystem :=
  let scale_x := width / ps.width
  let scale_y := height / ps.height
  { particles := ps.particles.map fun p => { p with x := p.x * scale_x, y := p.y * scale_y }
    width := width
    height := height }

/-! ## `render.rs`: the non-highlighted node pass -/

/-- The `smooth_step` easing from `render.rs`. -/
def smooth_step (t : ℚ) : ℚ := t * t * (3 - 2 * t)

/-- Pass 2 of `draw_nodes` in `render.rs`: for each node whose highlight
intensity is at most `0.001`, the `(alpha, radius_mult)` pair it is drawn
with.  `max_i` is `state.highlight.max_intensity()` and `node_i` gives
each node has its `node_intensity`.  Nodes above the intensity cutoff are left
to pass 3 (`none` here, the early `return`). -/
def drawNonHighlighted (nodes : List ℕ) (node_i : ℕ → ℚ) (max_i : ℚ) :
    List (ℕ × ℚ × ℚ) :=
  let max_t := smooth_step max_i
  let has_highlight := 0.01 < max_t
  nodes.filterMap fun n =>
    if 0.001 < node_i n then none
    else some (n, if has_highlight then (1 - 0.7 * max_t, 1 - 0.15 * max_t) else (1, 1))

/-! ## `state.rs`: the hover-highlight state machine

`HighlightState` holds three `HashMap`s keyed by node handles.  Each map
is embedded as its key `Finset` (`..Keys`) plus a total value function
(`..Val`); a lookup gates through the key set so that absent keys read as
`0.0`, as the Rust accessors do.  The intensity update factors are the
exponentials the code computes from `dt`, so these definitions live in
`ℝ` and are noncomputable. -/

/-- The `HighlightState` struct from `state.rs`. -/
structure HighlightState where
  hovered_node : Option ℕ
  target_set : Finset ℕ
  nodeKeys : Finset ℕ
  nodeVal : ℕ → ℝ
  ringKeys : Finset ℕ
  ringVal : ℕ → ℝ
  holdKeys : Finset ℕ
  holdVal : ℕ → ℝ
  cached_max : ℝ

/-- Embedding of `HighlightState::default()`: everything empty, all intensities 0. -/
def HighlightState.init : HighlightState :=
  { hovered_node := none, target_set := ∅
    nodeKeys := ∅, nodeVal := fun _ => 0
    ringKeys := ∅, ringVal := fun _ => 0
    holdKeys := ∅, holdVal := fun _ => 0
    cached_max := 0 }

/-- The `MIN_HOLD_TIME` constant from `state.rs`. -/
def MIN_HOLD_TIME : ℝ := 0.12

/-- Embedding of `HighlightState::node_intensity(idx)`: the stored intensity, `0.0`
for absent keys. -/
def HighlightState.node_intensity (s : HighlightState) (idx : ℕ) : ℝ :=
  if idx ∈ s.nodeKeys then s.nodeVal idx else 0

/-- Embedding of `HighlightState::hover_ring_intensity(idx)`. -/
def HighlightState.hover_ring_intensity (s : HighlightState) (idx : ℕ) : ℝ :=
  if idx ∈ s.ringKeys then s.ringVal idx else 0

/-- Embedding of `HighlightState::edge_intensity(idx1, idx2)`: geometric mean of the
endpoint intensities. -/
noncomputable def HighlightState.edge_intensity (s : HighlightState) (idx1 idx2 : ℕ) : ℝ :=
  Real.sqrt (s.node_intensity idx1 * s.node_intensity idx2)

/-- Embedding of `HighlightState::max_intensity()`: the cached maximum. -/
def HighlightState.max_intensity (s : HighlightState) : ℝ :=
  s.cached_max

/-- The target set `set_hover` computes for a hovered `idx`: the node
itself plus every neighbor found in one scan of the edge list. -/
def targetOf (idx : ℕ) (edges : List (ℕ × ℕ)) : Finset ℕ :=
  insert idx
    (edges.filterMap fun e =>
      if e.1 = idx then some e.2 else if e.2 = idx then some e.1 else none).toFinset

/-- Embedding of `HighlightState::set_hover(node, edges)`: no-op when the hovered node
is unchanged; otherwise replace the hovered node, recompute the target
set, and reset the hold timer of every member of the new target set to
`MIN_HOLD_TIME`. -/
def HighlightState.set_hover (s : HighlightState) (node : Option ℕ)
    (edges : List (ℕ × ℕ)) : HighlightState :=
  if s.hovered_node = node then s
  else
    match node with
    | none => { s with hovered_node := none, target_set := ∅ }
    | some idx =>
      let t := targetOf idx edges
      { s with
        hovered_node := some idx
        target_set := t
        holdKeys := s.holdKeys ∪ t
        holdVal := fun i => if i ∈ t then MIN_HOLD_TIME else s.holdVal i }

/-! `HighlightState::tick(dt)` is embedded stage by stage: the fade-in
factors, the per-map updated value functions, and the retained key sets,
assembled into the new state by `HighlightState.tick` below.  Each stage
definition corresponds to one loop or `retain` call of the Rust body. -/

/-- The factor `1.0 - (-FADE_IN_SPEED * dt).exp()` with `FADE_IN_SPEED = 6.0`. -/
noncomputable def fade_in_factor (dt : ℝ) : ℝ := 1 - Real.exp (-6 * dt)

/-- The decay `(-FADE_OUT_SPEED * dt).exp()` with `FADE_OUT_SPEED = 4.0`. -/
noncomputable def fade_out_decay (dt : ℝ) : ℝ := Real.exp (-4 * dt)

/-- Key set of the intensity map after the fade-in loop:
`entry(idx).or_insert(0.0)` inserts every target-set member. -/
def HighlightState.tickNodeKeys1 (s : HighlightState) : Finset ℕ :=
  s.nodeKeys ∪ s.target_set

/-- Intensity values after the fade-in loop: every target-set member moves
towards `1.0` by `(1 - intensity) * fade_in_factor`. -/
noncomputable def HighlightState.tickNodeVal1 (s : HighlightState) (dt : ℝ) : ℕ → ℝ :=
  fun i =>
    if i ∈ s.target_set then
      s.node_intensity i + (1 - s.node_intensity i) * fade_in_factor dt
    else s.nodeVal i

/-- Hold timers after `hold_timer.retain`: timers of still-targeted nodes
are kept, the rest are counted down by `dt`. -/
noncomputable def HighlightState.tickHoldVal (s : HighlightState) (dt : ℝ) : ℕ → ℝ :=
  fun i => if i ∈ s.target_set then s.holdVal i else s.holdVal i - dt

/-- Keys surviving `hold_timer.retain`: still-targeted, or counted down to
a still-positive value. -/
noncomputable def HighlightState.tickHoldKeys (s : HighlightState) (dt : ℝ) : Finset ℕ :=
  s.holdKeys.filter fun i => i ∈ s.target_set ∨ 0 < s.tickHoldVal dt i

/-- The lookup `hold_timer.get(idx).copied().unwrap_or(0.0)` against the
updated hold map. -/
noncomputable def HighlightState.tickHoldRemaining (s : HighlightState) (dt : ℝ) : ℕ → ℝ :=
  fun i => if i ∈ s.tickHoldKeys dt then s.tickHoldVal dt i else 0

/-- Intensity values after `node_intensity.retain`: entries outside the
target set decay by `fade_out_decay` once their hold timer is gone. -/
noncomputable def HighlightState.tickNodeVal2 (s : HighlightState) (dt : ℝ) : ℕ → ℝ :=
  fun i =>
    if i ∈ s.target_set then s.tickNodeVal1 dt i
    else if s.tickHoldRemaining dt i ≤ 0 then s.tickNodeVal1 dt i * fade_out_decay dt
    else s.tickNodeVal1 dt i

/-- Keys surviving `node_intensity.retain`: targeted, or still above the
`0.005` visibility cutoff. -/
noncomputable def HighlightState.tickNodeKeys2 (s : HighlightState) (dt : ℝ) : Finset ℕ :=
  s.tickNodeKeys1.filter fun i => i ∈ s.target_set ∨ 0.005 < s.tickNodeVal2 dt i

/-- The running maximum `node_intensity.retain` accumulates: over every
entry present when the retain began, dropped entries included. -/
noncomputable def HighlightState.tickNewMax (s : HighlightState) (dt : ℝ) : ℝ :=
  s.tickNodeKeys1.fold max 0 (s.tickNodeVal2 dt)

/-- Ring map keys after the fade-in step: the hovered node is inserted. -/
def HighlightState.tickRingKeys1 (s : HighlightState) : Finset ℕ :=
  match s.hovered_node with
  | some i => insert i s.ringKeys
  | none => s.ringKeys

/-- Ring values after the fade-in step (only the entry of the hovered
node moves). -/
noncomputable def HighlightState.tickRingVal1 (s : HighlightState) (dt : ℝ) : ℕ → ℝ :=
  fun i =>
    if s.hovered_node = some i then
      s.hover_ring_intensity i + (1 - s.hover_ring_intensity i) * fade_in_factor dt
    else s.ringVal i

/-- Ring values after `hover_ring_intensity.retain`: the non-hovered
entries decay like intensities, gated by the same hold timers. -/
noncomputable def HighlightState.tickRingVal2 (s : HighlightState) (dt : ℝ) : ℕ → ℝ :=
  fun i =>
    if s.hovered_node = some i then s.tickRingVal1 dt i
    else if s.tickHoldRemaining dt i ≤ 0 then s.tickRingVal1 dt i * fade_out_decay dt
    else s.tickRingVal1 dt i

/-- Keys surviving `hover_ring_intensity.retain`. -/
noncomputable def HighlightState.tickRingKeys2 (s : HighlightState) (dt : ℝ) : Finset ℕ :=
  s.tickRingKeys1.filter fun i => s.hovered_node = some i ∨ 0.005 < s.tickRingVal2 dt i

/-- Embedding of `HighlightState::tick(dt)`: fade the target set (and the
ring of the hovered node) in, count down and prune hold timers of nodes outside the
target set, fade out and prune intensities whose hold timer is gone while
accumulating the new cached maximum over every visited entry (including
entries pruned in this pass), and apply the same fade-out to the ring
map. -/
noncomputable def HighlightState.tick (s : HighlightState) (dt : ℝ) : HighlightState :=
  { hovered_node := s.hovered_node
    target_set := s.target_set
    nodeKeys := s.tickNodeKeys2 dt
    nodeVal := s.tickNodeVal2 dt
    ringKeys := s.tickRingKeys2 dt
    ringVal := s.tickRingVal2 dt
    holdKeys := s.tickHoldKeys dt
    holdVal := s.tickHoldVal dt
    cached_max := s.tickNewMax dt }

/-- One driver input to the highlight engine: a hover change (with the
edge list `ForceGraphState::set_hover` passes along) or a frame tick. -/
inductive HOp where
  | hover (node : Option ℕ) (edges : List (ℕ × ℕ))
  | tick (dt : ℝ)

/-- Run a sequence of driver inputs from a starting state. -/
noncomputable def runOps (s : HighlightState) : List HOp → HighlightState
  | [] => s
  | .hover node edges :: rest => runOps (s.set_hover node edges) rest
  | .tick dt :: rest => runOps (s.tick dt) rest

/-- Apply `n` frame ticks of a fixed duration `dt`. -/
noncomputable def tickIter (s : HighlightState) (dt : ℝ) : ℕ → HighlightState
  | 0 => s
  | n + 1 => (tickIter s dt n).tick dt

/-- Number of the first `n` ticks of duration `dt` on which a hold timer
reset to `MIN_HOLD_TIME` right before the first tick has already expired:
tick `i+1` decays once the accumulated time `(i+1)·dt` reaches the hold
time. -/
noncomputable def decaySteps (dt : ℝ) (n : ℕ) : ℕ :=
  ((Finset.range n).filter fun i => MIN_HOLD_TIME ≤ (i + 1 : ℕ) * dt).card

/-- Apply a list of frame ticks in order. -/
noncomputable def applyTicks (s : HighlightState) (dts : List ℝ) : HighlightState :=
  dts.foldl HighlightState.tick s

/-- All stored intensities, ring intensities and the cached maximum lie in
`[0, 1]`. -/
def HighlightState.Bounded (s : HighlightState) : Prop :=
  (∀ i, 0 ≤ s.nodeVal i ∧ s.nodeVal i ≤ 1) ∧
  (∀ i, 0 ≤ s.ringVal i ∧ s.ringVal i ≤ 1) ∧
  0 ≤ s.cached_max ∧ s.cached_max ≤ 1

/-- The state right after `set_hover(None)` cleared the hover away from a
node `a` whose hold timer had just been reset: `a` is tracked at intensity
`v` with `MIN_HOLD_TIME` on its hold timer, nothing is targeted. -/
noncomputable def fadeStart (a : ℕ) (v : ℝ) : HighlightState :=
  { hovered_node := none, target_set := ∅
    nodeKeys := {a}, nodeVal := fun i => if i = a then v else 0
    ringKeys := ∅, ringVal := fun _ => 0
    holdKeys := {a}, holdVal := fun i => if i = a then MIN_HOLD_TIME else 0
    cached_max := v }

/-- Shape invariant of the fade-out scenario: hover cleared, nothing
targeted, node `a` the only possibly tracked node.
`v` is the current (positive) intensity of `a`; `a` is still tracked iff
`v` is above the `0.005` cutoff.  `hold` is `a`:s hold-timer entry. -/
def FadeInv (a : ℕ) (v : ℝ) (hold : Option ℝ) (s : HighlightState) : Prop :=
  s.hovered_node = none ∧ s.target_set = ∅ ∧
  (match hold with
   | some t => s.holdKeys = {a} ∧ s.holdVal a = t
   | none => s.holdKeys = ∅) ∧
  0 < v ∧
  ((0.005 < v ∧ s.nodeKeys = {a} ∧ s.nodeVal a = v) ∨ (v ≤ 0.005 ∧ s.nodeKeys = ∅))

end ForceGraph

namespace ForceGraph

/-! ## Order facts about `Xq` used by the clamp proofs -/

theorem Xq.ble_refl (a : Xq) : a.ble a = true := by
  cases a <;> simp [Xq.ble]

theorem Xq.ble_of_blt_eq_false {a b : Xq} (h : a.blt b = false) : b.ble a = true := by
  cases a <;> cases b <;> simp_all [Xq.ble, Xq.blt]

theorem Xq.ble_divPos {a b : Xq} {k : ℚ} (hk : 0 < k) :
    (a.divPos k).ble (b.divPos k) = a.ble b := by
  cases a <;> cases b <;> simp [Xq.ble, Xq.divPos, div_le_div_iff_of_pos_right, hk]

theorem Xq.ble_mulPos {a b : Xq} {k : ℚ} (hk : 0 < k) (h : a.ble b = true) :
    (a.mulPos k).ble (b.mulPos k) = true := by
  cases a <;> cases b <;> simp_all [Xq.ble, Xq.mulPos]

theorem Xq.divPos_mulPos (a : Xq) {k : ℚ} (hk : k ≠ 0) :
    (a.divPos k).mulPos k = a := by
  cases a <;> simp [Xq.divPos, Xq.mulPos, div_mul_cancel₀, hk]

theorem Xq.ble_clampX_left {v mn mx : Xq} (h : mn.ble mx = true) :
    mn.ble (Xq.clampX v mn mx) = true := by
  unfold Xq.clampX
  by_cases h1 : v.blt mn = true
  · simp [h1, Xq.ble_refl]
  · rw [Bool.not_eq_true] at h1
    by_cases h2 : mx.blt v = true
    · simp [h1, h2, h]
    · rw [Bool.not_eq_true] at h2
      simp [h1, h2, Xq.ble_of_blt_eq_false h1]

theorem Xq.ble_clampX_right {v mn mx : Xq} (h : mn.ble mx = true) :
    (Xq.clampX v mn mx).ble mx = true := by
  unfold Xq.clampX
  by_cases h1 : v.blt mn = true
  · simp [h1, h]
  · rw [Bool.not_eq_true] at h1
    by_cases h2 : mx.blt v = true
    · simp [h1, h2, Xq.ble_refl]
    · rw [Bool.not_eq_true] at h2
      simp [h1, h2, Xq.ble_of_blt_eq_false h2]

/-! ## C4: `Clamped` keeps the drawn screen size inside its band -/

/-- C4: for every zoom `k > 0` and every `Clamped` behavior with
`min_screen <= max_screen`, `apply` succeeds and the resolved world value
times `k` (the drawn screen size) lies within `[min_screen, max_screen]`;
in particular `Clamped(base 5, min 5, max ∞)` resolves to exactly `5` at
`k = 1`, and at `k = 10` to a value whose screen size is at least `5`. -/
theorem c4_clamped_screen_size_bounded (k : ℚ) (mn mx : Xq) (base : ℚ)
    (hk : 0 < k) (hle : mn.ble mx = true) :
    (∃ w : Xq, ScaleBehavior.apply (.clamped mn mx) base k = some w ∧
      mn.ble (w.mulPos k) = true ∧ (w.mulPos k).ble mx = true) ∧
    ScaleBehavior.apply (.clamped (.fin 5) .pinf) 5 1 = some (.fin 5) ∧
    (∃ w : Xq, ScaleBehavior.apply (.clamped (.fin 5) .pinf) 5 10 = some w ∧
      (Xq.fin 5).ble (w.mulPos 10) = true) := by
  have hcond : (mn.divPos k).ble (mx.divPos k) = true := by
    rw [Xq.ble_divPos hk]; exact hle
  refine ⟨⟨Xq.clampX (.fin base) (mn.divPos k) (mx.divPos k), ?_, ?_, ?_⟩,
    by norm_num [ScaleBehavior.apply, Xq.divPos, Xq.ble, Xq.blt, Xq.clampX], ?_⟩
  · simp [ScaleBehavior.apply, hcond]
  · have h1 := Xq.ble_mulPos hk
      (@Xq.ble_clampX_left (.fin base) (mn.divPos k) (mx.divPos k) hcond)
    rwa [Xq.divPos_mulPos mn hk.ne'] at h1
  · have h1 := Xq.ble_mulPos hk
      (@Xq.ble_clampX_right (.fin base) (mn.divPos k) (mx.divPos k) hcond)
    rwa [Xq.divPos_mulPos mx hk.ne'] at h1
  · exact ⟨.fin 5,
      by norm_num [ScaleBehavior.apply, Xq.divPos, Xq.ble, Xq.blt, Xq.clampX],
      by norm_num [Xq.ble, Xq.mulPos]⟩

/-- Witness for C4 at `k = 1`, bounds `[5, ∞)`, base `5`. -/
theorem c4_clamped_screen_size_bounded_witness :
    (0 : ℚ) < 1 ∧ (Xq.fin 5).ble .pinf = true ∧
    ((∃ w : Xq, ScaleBehavior.apply (.clamped (.fin 5) .pinf) 5 1 = some w ∧
        (Xq.fin 5).ble (w.mulPos 1) = true ∧ (w.mulPos 1).ble .pinf = true) ∧
      ScaleBehavior.apply (.clamped (.fin 5) .pinf) 5 1 = some (.fin 5) ∧
      (∃ w : Xq, ScaleBehavior.apply (.clamped (.fin 5) .pinf) 5 10 = some w ∧
        (Xq.fin 5).ble (w.mulPos 10) = true)) :=
  ⟨by norm_num, rfl,
    c4_clamped_screen_size_bounded 1 (.fin 5) .pinf 5 (by norm_num) rfl⟩

/-! ## C10: totality of `ScaleBehavior::apply` -/

/-- C10: the operation `ScaleBehavior::apply` is total for `World` and `Screen`, and
for `Clamped` exactly under the precondition `min_screen <= max_screen`
(for positive zoom): with ordered bounds it returns a value, with
`min_screen > max_screen` the internal `f64::clamp` assertion fires
(modeled as `none`). -/
theorem c10_apply_total_iff_bounds_ordered (base k : ℚ) (mn mx : Xq) (hk : 0 < k) :
    (ScaleBehavior.apply .world base k).isSome ∧
    (ScaleBehavior.apply .screen base k).isSome ∧
    (mn.ble mx = true → (ScaleBehavior.apply (.clamped mn mx) base k).isSome) ∧
    (mn.ble mx = false → ScaleBehavior.apply (.clamped mn mx) base k = none) := by
  refine ⟨rfl, rfl, ?_, ?_⟩
  · intro h
    have hcond : (mn.divPos k).ble (mx.divPos k) = true := by
      rw [Xq.ble_divPos hk]; exact h
    simp [ScaleBehavior.apply, hcond]
  · intro h
    have hcond : (mn.divPos k).ble (mx.divPos k) = false := by
      rw [Xq.ble_divPos hk]; exact h
    simp [ScaleBehavior.apply, hcond]

/-- Witness for C10 at `k = 2`, ordered bounds `[5, ∞)` and inverted
bounds `(3, 1)`. -/
theorem c10_apply_total_iff_bounds_ordered_witness :
    (0 : ℚ) < 2 ∧
    ((ScaleBehavior.apply .world 5 2).isSome ∧
      (ScaleBehavior.apply .screen 5 2).isSome ∧
      ((Xq.fin 5).ble .pinf = true →
        (ScaleBehavior.apply (.clamped (.fin 5) .pinf) 5 2).isSome) ∧
      ((Xq.fin 5).ble .pinf = false →
        ScaleBehavior.apply (.clamped (.fin 5) .pinf) 5 2 = none)) ∧
    ((ScaleBehavior.apply .world 5 2).isSome ∧
      (ScaleBehavior.apply .screen 5 2).isSome ∧
      ((Xq.fin 3).ble (.fin 1) = true →
        (ScaleBehavior.apply (.clamped (.fin 3) (.fin 1)) 5 2).isSome) ∧
      ((Xq.fin 3).ble (.fin 1) = false →
        ScaleBehavior.apply (.clamped (.fin 3) (.fin 1)) 5 2 = none)) :=
  ⟨by norm_num,
    c10_apply_total_iff_bounds_ordered 5 2 (.fin 5) .pinf (by norm_num),
    c10_apply_total_iff_bounds_ordered 5 2 (.fin 3) (.fin 1) (by norm_num)⟩

/-! ## C7: the zoom factor stays in `[0.1, 10]` -/

/-- C7: the zoom factor `k` is `1.0` at construction; every wheel-zoom
event produces a `k` clamped into `[0.1, 10]`; mouse-down, mouse-move
(drag or pan) and mouse-up leave `k` unchanged. -/
theorem c7_zoom_factor_clamped (g : GraphView) (w h x y d : ℚ) (hit : Option ℕ) :
    (initTransform w h).k = 1 ∧
    (0.1 ≤ (onWheel g x y d).transform.k ∧ (onWheel g x y d).transform.k ≤ 10) ∧
    (onMouseDown g x y hit).transform.k = g.transform.k ∧
    (onMouseMove g x y).transform.k = g.transform.k ∧
    (onMouseUp g).transform.k = g.transform.k := by
  refine ⟨rfl, ?_, ?_, ?_, rfl⟩
  · have hb : ∀ v : ℚ, 0.1 ≤ clampQ v 0.1 10 ∧ clampQ v 0.1 10 ≤ 10 := by
      intro v
      unfold clampQ
      split_ifs <;> constructor <;> linarith
    exact hb _
  · cases hit <;> rfl
  · unfold onMouseMove
    split_ifs
    · cases hdx : g.drag.node_idx <;> simp [hdx]
    · rfl
    · rfl

/-! ## C9: `ParticleSystem::resize` rescales proportionally -/

/-- C9: the call `resize(newW, newH)` multiplies the `x` of every particle by
`newW/oldW` and `y` by `newH/oldH`; a particle at `(w/2, h/2)` in a field
of size `(w, h)` sits at `(w, h)` after `resize(2w, 2h)`. -/
theorem c9_resize_rescales (ps : ParticleSystem) (width height : ℚ)
    (w h vx vy sz al ph : ℚ) (hw : w ≠ 0) (hh : h ≠ 0) :
    (ps.resize width height).particles =
      (ps.particles.map fun p =>
        { p with x := p.x * (width / ps.width), y := p.y * (height / ps.height) }) ∧
    (ParticleSystem.resize
        { particles := [⟨w / 2, h / 2, vx, vy, sz, al, ph⟩], width := w, height := h }
        (2 * w) (2 * h)).particles = [⟨w, h, vx, vy, sz, al, ph⟩] := by
  constructor
  · rfl
  · simp only [ParticleSystem.resize, List.map_cons, List.map_nil]
    have hx : w / 2 * (2 * w / w) = w := by field_simp
    have hy : h / 2 * (2 * h / h) = h := by field_simp
    simp [hx, hy]

/-- Witness for C9 at a `4 × 6` field. -/
theorem c9_resize_rescales_witness :
    (4 : ℚ) ≠ 0 ∧ (6 : ℚ) ≠ 0 ∧
    (((⟨[], 1, 1⟩ : ParticleSystem).resize 3 3).particles =
        (([] : List Particle).map fun p =>
          { p with x := p.x * (3 / (1 : ℚ)), y := p.y * (3 / (1 : ℚ))}) ∧
      (ParticleSystem.resize
          { particles := [⟨4 / 2, 6 / 2, 0, 0, 1, 1, 0⟩], width := 4, height := 6 }
          (2 * 4) (2 * 6)).particles = [⟨4, 6, 0, 0, 1, 1, 0⟩]) :=
  ⟨by norm_num, by norm_num,
    c9_resize_rescales ⟨[], 1, 1⟩ 3 3 4 6 0 0 1 1 0 (by norm_num) (by norm_num)⟩

/-! ## C8: edge intensity is symmetric -/

/-- C8: the identity `edge_intensity(a, b) = edge_intensity(b, a)` holds in every
highlight state. -/
theorem c8_edge_intensity_symm (s : HighlightState) (a b : ℕ) :
    s.edge_intensity a b = s.edge_intensity b a := by
  unfold HighlightState.edge_intensity
  rw [mul_comm]

/-! ## C5: dimming of non-highlighted nodes -/

/-- C5, counterexample: at `max_intensity = 1/4` (with node intensity
`0`), pass 2 of `draw_nodes` emits alpha `57/64` and radius multiplier
`125/128` — the smooth-stepped values — not `1 - 0.7·maxIntensity` and
`1 - 0.15·maxIntensity` as claimed (those would be `33/40` and `77/80`). -/
theorem c5_dimmed_counterexample :
    drawNonHighlighted [0] (fun _ => 0) (1 / 4) = [(0, 57 / 64, 125 / 128)] ∧
    (57 / 64 : ℚ) ≠ 1 - 0.7 * (1 / 4) ∧ (125 / 128 : ℚ) ≠ 1 - 0.15 * (1 / 4) := by
  refine ⟨?_, by norm_num, by norm_num⟩
  norm_num [drawNonHighlighted, smooth_step, List.filterMap]

/-- C5, amended: in the node render pass, every node whose intensity
is at most `0.001` is drawn with alpha `1 - 0.7·smooth_step(maxIntensity)`
and radius multiplier `1 - 0.15·smooth_step(maxIntensity)` when the eased
maximum `smooth_step(maxIntensity)` is above the `0.01` highlight
threshold, and with alpha `1` and radius multiplier `1` otherwise. -/
theorem c5_amended_dimmed_params (nodes : List ℕ) (node_i : ℕ → ℚ) (max_i : ℚ)
    (n : ℕ) (hn : n ∈ nodes) (hlow : node_i n ≤ 0.001) :
    (n, if 0.01 < smooth_step max_i
        then (1 - 0.7 * smooth_step max_i, 1 - 0.15 * smooth_step max_i)
        else (1, 1)) ∈ drawNonHighlighted nodes node_i max_i := by
  unfold drawNonHighlighted
  simp only [List.mem_filterMap]
  exact ⟨n, hn, by rw [if_neg (by linarith)]⟩

/-- Witness for the amended C5 at a one-node list with `max_intensity = 1/2`. -/
theorem c5_amended_dimmed_params_witness :
    (3 ∈ [3] ∧ (0 : ℚ) ≤ 0.001) ∧
    (3, if (0.01 : ℚ) < smooth_step (1 / 2)
        then (1 - 0.7 * smooth_step (1 / 2), 1 - 0.15 * smooth_step (1 / 2))
        else (1, 1)) ∈ drawNonHighlighted [3] (fun _ => 0) (1 / 2) :=
  ⟨⟨by simp, by norm_num⟩,
    c5_amended_dimmed_params [3] (fun _ => 0) (1 / 2) 3 (by simp) (by norm_num)⟩

/-! ## Numeric facts about the fade factors -/

theorem fade_in_factor_nonneg {dt : ℝ} (h : 0 ≤ dt) : 0 ≤ fade_in_factor dt := by
  have : Real.exp (-6 * dt) ≤ 1 := Real.exp_le_one_iff.mpr (by linarith)
  unfold fade_in_factor
  linarith

theorem fade_in_factor_le_one (dt : ℝ) : fade_in_factor dt ≤ 1 := by
  have := Real.exp_pos (-6 * dt)
  unfold fade_in_factor
  linarith

theorem fade_out_decay_pos (dt : ℝ) : 0 < fade_out_decay dt :=
  Real.exp_pos _

theorem fade_out_decay_le_one {dt : ℝ} (h : 0 ≤ dt) : fade_out_decay dt ≤ 1 :=
  Real.exp_le_one_iff.mpr (by linarith)

theorem fade_step_mem {a f : ℝ} (ha0 : 0 ≤ a) (ha1 : a ≤ 1) (hf0 : 0 ≤ f)
    (hf1 : f ≤ 1) : 0 ≤ a + (1 - a) * f ∧ a + (1 - a) * f ≤ 1 := by
  constructor <;> nlinarith

/-! ## C1: every intensity stays in the unit interval -/

theorem HighlightState.Bounded.node_intensity_mem {s : HighlightState}
    (hb : s.Bounded) (i : ℕ) : 0 ≤ s.node_intensity i ∧ s.node_intensity i ≤ 1 := by
  unfold HighlightState.node_intensity
  split
  · exact hb.1 i
  · norm_num

theorem HighlightState.Bounded.hover_ring_intensity_mem {s : HighlightState}
    (hb : s.Bounded) (i : ℕ) :
    0 ≤ s.hover_ring_intensity i ∧ s.hover_ring_intensity i ≤ 1 := by
  unfold HighlightState.hover_ring_intensity
  split
  · exact hb.2.1 i
  · norm_num

theorem bounded_init : HighlightState.init.Bounded := by
  refine ⟨fun i => ?_, fun i => ?_, ?_, ?_⟩ <;> simp [HighlightState.init]

theorem HighlightState.Bounded.set_hover {s : HighlightState} (hb : s.Bounded)
    (node : Option ℕ) (edges : List (ℕ × ℕ)) : (s.set_hover node edges).Bounded := by
  unfold HighlightState.set_hover
  split
  · exact hb
  · cases node
    · exact hb
    · exact hb

theorem HighlightState.Bounded.tickNodeVal2_mem {s : HighlightState} (hb : s.Bounded)
    {dt : ℝ} (hdt : 0 ≤ dt) (i : ℕ) :
    0 ≤ s.tickNodeVal2 dt i ∧ s.tickNodeVal2 dt i ≤ 1 := by
  have hval1 : 0 ≤ s.tickNodeVal1 dt i ∧ s.tickNodeVal1 dt i ≤ 1 := by
    unfold HighlightState.tickNodeVal1
    split
    · exact fade_step_mem (hb.node_intensity_mem i).1 (hb.node_intensity_mem i).2
        (fade_in_factor_nonneg hdt) (fade_in_factor_le_one dt)
    · exact hb.1 i
  unfold HighlightState.tickNodeVal2
  split
  · exact hval1
  · split
    · constructor
      · exact mul_nonneg hval1.1 (fade_out_decay_pos dt).le
      · exact mul_le_one₀ hval1.2 (fade_out_decay_pos dt).le (fade_out_decay_le_one hdt)
    · exact hval1

theorem HighlightState.Bounded.tickRingVal2_mem {s : HighlightState} (hb : s.Bounded)
    {dt : ℝ} (hdt : 0 ≤ dt) (i : ℕ) :
    0 ≤ s.tickRingVal2 dt i ∧ s.tickRingVal2 dt i ≤ 1 := by
  have hval1 : 0 ≤ s.tickRingVal1 dt i ∧ s.tickRingVal1 dt i ≤ 1 := by
    unfold HighlightState.tickRingVal1
    split
    · exact fade_step_mem (hb.hover_ring_intensity_mem i).1
        (hb.hover_ring_intensity_mem i).2
        (fade_in_factor_nonneg hdt) (fade_in_factor_le_one dt)
    · exact hb.2.1 i
  unfold HighlightState.tickRingVal2
  split
  · exact hval1
  · split
    · constructor
      · exact mul_nonneg hval1.1 (fade_out_decay_pos dt).le
      · exact mul_le_one₀ hval1.2 (fade_out_decay_pos dt).le (fade_out_decay_le_one hdt)
    · exact hval1

theorem HighlightState.Bounded.tick {s : HighlightState} (hb : s.Bounded)
    {dt : ℝ} (hdt : 0 ≤ dt) : (s.tick dt).Bounded := by
  refine ⟨fun i => hb.tickNodeVal2_mem hdt i, fun i => hb.tickRingVal2_mem hdt i, ?_, ?_⟩
  · show 0 ≤ s.tickNewMax dt
    unfold HighlightState.tickNewMax
    exact (Finset.le_fold_max 0).mpr (Or.inl le_rfl)
  · show s.tickNewMax dt ≤ 1
    unfold HighlightState.tickNewMax
    exact (Finset.fold_max_le 1).mpr ⟨by norm_num, fun x _ => (hb.tickNodeVal2_mem hdt x).2⟩

theorem bounded_runOps (ops : List HOp) (s : HighlightState) (hb : s.Bounded)
    (h : ∀ dt, HOp.tick dt ∈ ops → 0 ≤ dt) : (runOps s ops).Bounded := by
  induction ops generalizing s with
  | nil => exact hb
  | cons op rest ih =>
    cases op with
    | hover node edges =>
      exact ih (s.set_hover node edges) (hb.set_hover node edges)
        fun dt hdt => h dt (List.mem_cons_of_mem _ hdt)
    | tick dt =>
      exact ih (s.tick dt) (hb.tick (h dt (List.mem_cons_self _ _)))
        fun d hd => h d (List.mem_cons_of_mem _ hd)

/-- C1: for every sequence of `set_hover` and `tick(dt)` calls with
`dt >= 0` starting from the default state, every node intensity, every
hover ring intensity and the value of `max_intensity()` lie in `[0, 1]`. -/
theorem c1_intensities_in_unit_interval (ops : List HOp)
    (hdts : ∀ dt, HOp.tick dt ∈ ops → 0 ≤ dt) :
    (∀ i, 0 ≤ (runOps HighlightState.init ops).node_intensity i ∧
        (runOps HighlightState.init ops).node_intensity i ≤ 1) ∧
    (∀ i, 0 ≤ (runOps HighlightState.init ops).hover_ring_intensity i ∧
        (runOps HighlightState.init ops).hover_ring_intensity i ≤ 1) ∧
    0 ≤ (runOps HighlightState.init ops).max_intensity ∧
    (runOps HighlightState.init ops).max_intensity ≤ 1 := by
  have hb := bounded_runOps ops HighlightState.init bounded_init hdts
  exact ⟨fun i => hb.node_intensity_mem i, fun i => hb.hover_ring_intensity_mem i,
    hb.2.2.1, hb.2.2.2⟩

/-- Witness for C1: hover node `0` of edge `(0, 1)`, then one 1-second tick. -/
theorem c1_intensities_in_unit_interval_witness :
    (∀ dt : ℝ, HOp.tick dt ∈ [HOp.hover (some 0) [(0, 1)], HOp.tick 1] → 0 ≤ dt) ∧
    ((∀ i, 0 ≤ (runOps HighlightState.init
            [HOp.hover (some 0) [(0, 1)], HOp.tick 1]).node_intensity i ∧
        (runOps HighlightState.init
            [HOp.hover (some 0) [(0, 1)], HOp.tick 1]).node_intensity i ≤ 1) ∧
      (∀ i, 0 ≤ (runOps HighlightState.init
            [HOp.hover (some 0) [(0, 1)], HOp.tick 1]).hover_ring_intensity i ∧
        (runOps HighlightState.init
            [HOp.hover (some 0) [(0, 1)], HOp.tick 1]).hover_ring_intensity i ≤ 1) ∧
      0 ≤ (runOps HighlightState.init
          [HOp.hover (some 0) [(0, 1)], HOp.tick 1]).max_intensity ∧
      (runOps HighlightState.init
          [HOp.hover (some 0) [(0, 1)], HOp.tick 1]).max_intensity ≤ 1) :=
  ⟨by intro dt h; simp at h; norm_num [h],
    c1_intensities_in_unit_interval [HOp.hover (some 0) [(0, 1)], HOp.tick 1]
      (by intro dt h; simp at h; norm_num [h])⟩

/-! ## Projections of `tick` (each field of the returned struct) -/

theorem tick_hovered_node (s : HighlightState) (dt : ℝ) :
    (s.tick dt).hovered_node = s.hovered_node := rfl

theorem tick_target_set (s : HighlightState) (dt : ℝ) :
    (s.tick dt).target_set = s.target_set := rfl

theorem tick_nodeKeys (s : HighlightState) (dt : ℝ) :
    (s.tick dt).nodeKeys = s.tickNodeKeys2 dt := rfl

theorem tick_nodeVal (s : HighlightState) (dt : ℝ) :
    (s.tick dt).nodeVal = s.tickNodeVal2 dt := rfl

theorem tick_ringKeys (s : HighlightState) (dt : ℝ) :
    (s.tick dt).ringKeys = s.tickRingKeys2 dt := rfl

theorem tick_holdKeys (s : HighlightState) (dt : ℝ) :
    (s.tick dt).holdKeys = s.tickHoldKeys dt := rfl

theorem tick_holdVal (s : HighlightState) (dt : ℝ) :
    (s.tick dt).holdVal = s.tickHoldVal dt := rfl

theorem tick_max_intensity (s : HighlightState) (dt : ℝ) :
    (s.tick dt).max_intensity = s.tickNewMax dt := rfl

/-! ## C3: what the cached maximum actually is -/

/-- C3, amended: after every `tick(dt)`: every still-tracked
intensity is at most `max_intensity()`; `max_intensity()` is nonnegative
and at most the larger of the tracked maximum and the `0.005` prune
cutoff (entries pruned during this very tick still feed the cached
maximum); and whenever no entry was pruned in the tick, `max_intensity()`
equals exactly the maximum over still-tracked intensities (`0` when
nothing is tracked). -/
theorem c3_amended_cached_max (s : HighlightState) (dt : ℝ) :
    (∀ i ∈ (s.tick dt).nodeKeys,
        (s.tick dt).node_intensity i ≤ (s.tick dt).max_intensity) ∧
    0 ≤ (s.tick dt).max_intensity ∧
    (s.tick dt).max_intensity ≤
      max ((s.tick dt).nodeKeys.fold max 0 (s.tick dt).nodeVal) 0.005 ∧
    ((s.tick dt).nodeKeys = s.nodeKeys ∪ s.target_set →
      (s.tick dt).max_intensity = (s.tick dt).nodeKeys.fold max 0 (s.tick dt).nodeVal) := by
  refine ⟨?_, ?_, ?_, ?_⟩
  · intro i hi
    rw [tick_nodeKeys] at hi
    have hi1 : i ∈ s.tickNodeKeys1 := (Finset.mem_filter.mp hi).1
    rw [tick_max_intensity]
    unfold HighlightState.node_intensity
    rw [tick_nodeKeys, tick_nodeVal]
    rw [if_pos hi]
    exact (Finset.le_fold_max _).mpr (Or.inr ⟨i, hi1, le_rfl⟩)
  · rw [tick_max_intensity]
    exact (Finset.le_fold_max 0).mpr (Or.inl le_rfl)
  · rw [tick_max_intensity, tick_nodeKeys, tick_nodeVal]
    refine (Finset.fold_max_le _).mpr ⟨le_max_of_le_right (by norm_num), fun x hx => ?_⟩
    by_cases hx2 : x ∈ s.tickNodeKeys2 dt
    · exact le_max_of_le_left ((Finset.le_fold_max _).mpr (Or.inr ⟨x, hx2, le_rfl⟩))
    · have hnot : ¬(x ∈ s.target_set ∨ 0.005 < s.tickNodeVal2 dt x) := by
        intro hc
        exact hx2 (Finset.mem_filter.mpr ⟨hx, hc⟩)
      push_neg at hnot
      exact le_max_of_le_right hnot.2
  · intro hkeys
    rw [tick_nodeKeys] at hkeys ⊢
    rw [tick_max_intensity, tick_nodeVal, hkeys]
    rfl

/-- Witness for the amended C3 on the initial state with `dt = 1`. -/
theorem c3_amended_cached_max_witness :
    (∀ i ∈ (HighlightState.init.tick 1).nodeKeys,
        (HighlightState.init.tick 1).node_intensity i ≤
          (HighlightState.init.tick 1).max_intensity) ∧
    0 ≤ (HighlightState.init.tick 1).max_intensity ∧
    (HighlightState.init.tick 1).max_intensity ≤
      max ((HighlightState.init.tick 1).nodeKeys.fold max 0
        (HighlightState.init.tick 1).nodeVal) 0.005 ∧
    ((HighlightState.init.tick 1).nodeKeys =
        HighlightState.init.nodeKeys ∪ HighlightState.init.target_set →
      (HighlightState.init.tick 1).max_intensity =
        (HighlightState.init.tick 1).nodeKeys.fold max 0
          (HighlightState.init.tick 1).nodeVal) :=
  c3_amended_cached_max HighlightState.init 1

/-! ## Stepping the fade-out scenario

One `tick(dt)` on a `FadeInv` state: while the hold timer stays positive
the intensity is frozen; on the tick that exhausts it the timer entry is
dropped and the intensity starts decaying by `fade_out_decay dt`; each
further tick keeps decaying, and the entry is pruned once at most
`0.005`. -/

theorem fadeStart_fadeInv {a : ℕ} {v : ℝ} (hv : 0.005 < v) :
    FadeInv a v (some MIN_HOLD_TIME) (fadeStart a v) := by
  refine ⟨rfl, rfl, ⟨rfl, by simp [fadeStart]⟩, by linarith,
    Or.inl ⟨hv, rfl, by simp [fadeStart]⟩⟩

theorem tick_fadeInv_hold {a : ℕ} {v t dt : ℝ} {s : HighlightState}
    (hs : FadeInv a v (some t) s) (hv : 0.005 < v) (hdt : 0 < t - dt) :
    FadeInv a v (some (t - dt)) (s.tick dt) ∧ (s.tick dt).cached_max = v := by
  obtain ⟨hov, tgt, ⟨holdK, holdV⟩, hvpos, hdisj⟩ := hs
  obtain ⟨-, keys, val⟩ := hdisj.resolve_right fun h => absurd hv (not_lt.mpr h.1)
  have hold1 : s.tickHoldVal dt a = t - dt := by
    simp [HighlightState.tickHoldVal, tgt, holdV]
  have holdK1 : s.tickHoldKeys dt = {a} := by
    unfold HighlightState.tickHoldKeys
    rw [holdK, Finset.filter_singleton, if_pos]
    rw [tgt, hold1]
    simp [hdt]
  have hrem : s.tickHoldRemaining dt a = t - dt := by
    simp [HighlightState.tickHoldRemaining, holdK1, hold1]
  have hval1 : s.tickNodeVal1 dt a = v := by
    simp [HighlightState.tickNodeVal1, tgt, val]
  have hval2 : s.tickNodeVal2 dt a = v := by
    unfold HighlightState.tickNodeVal2
    rw [if_neg (by simp [tgt]), if_neg (by rw [hrem]; linarith), hval1]
  have hkeys2 : s.tickNodeKeys2 dt = {a} := by
    unfold HighlightState.tickNodeKeys2 HighlightState.tickNodeKeys1
    rw [tgt, keys, Finset.union_empty, Finset.filter_singleton, if_pos]
    rw [hval2]
    simp [hv]
  refine ⟨⟨?_, ?_, ⟨?_, ?_⟩, hvpos, Or.inl ⟨hv, ?_, ?_⟩⟩, ?_⟩
  · rw [tick_hovered_node, hov]
  · rw [tick_target_set, tgt]
  · rw [tick_holdKeys, holdK1]
  · rw [tick_holdVal, hold1]
  · rw [tick_nodeKeys, hkeys2]
  · rw [tick_nodeVal, hval2]
  · show s.tickNewMax dt = v
    unfold HighlightState.tickNewMax HighlightState.tickNodeKeys1
    rw [tgt, keys, Finset.union_empty, Finset.fold_singleton, hval2]
    exact max_eq_left hvpos.le

theorem tick_fadeInv_expire {a : ℕ} {v t dt : ℝ} {s : HighlightState}
    (hs : FadeInv a v (some t) s) (hv : 0.005 < v) (hdt : t - dt ≤ 0) :
    FadeInv a (v * fade_out_decay dt) none (s.tick dt) ∧
    (s.tick dt).cached_max = v * fade_out_decay dt := by
  obtain ⟨hov, tgt, ⟨holdK, holdV⟩, hvpos, hdisj⟩ := hs
  obtain ⟨-, keys, val⟩ := hdisj.resolve_right fun h => absurd hv (not_lt.mpr h.1)
  have hold1 : s.tickHoldVal dt a = t - dt := by
    simp [HighlightState.tickHoldVal, tgt, holdV]
  have holdK1 : s.tickHoldKeys dt = ∅ := by
    unfold HighlightState.tickHoldKeys
    rw [holdK, Finset.filter_singleton, if_neg]
    rw [tgt, hold1]
    simp
    linarith
  have hrem : s.tickHoldRemaining dt a = 0 := by
    simp [HighlightState.tickHoldRemaining, holdK1]
  have hval1 : s.tickNodeVal1 dt a = v := by
    simp [HighlightState.tickNodeVal1, tgt, val]
  have hval2 : s.tickNodeVal2 dt a = v * fade_out_decay dt := by
    unfold HighlightState.tickNodeVal2
    rw [if_neg (by simp [tgt]), if_pos (by rw [hrem]), hval1]
  have hvpos2 : 0 < v * fade_out_decay dt := mul_pos hvpos (fade_out_decay_pos dt)
  refine ⟨⟨?_, ?_, ?_, hvpos2, ?_⟩, ?_⟩
  · rw [tick_hovered_node, hov]
  · rw [tick_target_set, tgt]
  · rw [tick_holdKeys, holdK1]
  · by_cases hcut : 0.005 < v * fade_out_decay dt
    · refine Or.inl ⟨hcut, ?_, ?_⟩
      · rw [tick_nodeKeys]
        unfold HighlightState.tickNodeKeys2 HighlightState.tickNodeKeys1
        rw [tgt, keys, Finset.union_empty, Finset.filter_singleton, if_pos]
        rw [hval2]
        simp [hcut]
      · rw [tick_nodeVal, hval2]
    · refine Or.inr ⟨not_lt.mp hcut, ?_⟩
      rw [tick_nodeKeys]
      unfold HighlightState.tickNodeKeys2 HighlightState.tickNodeKeys1
      rw [tgt, keys, Finset.union_empty, Finset.filter_singleton, if_neg]
      rw [hval2]
      simp [tgt]
      exact not_lt.mp hcut
  · show s.tickNewMax dt = v * fade_out_decay dt
    unfold HighlightState.tickNewMax HighlightState.tickNodeKeys1
    rw [tgt, keys, Finset.union_empty, Finset.fold_singleton, hval2]
    exact max_eq_left hvpos2.le

theorem tick_fadeInv_none {a : ℕ} {v dt : ℝ} {s : HighlightState}
    (hs : FadeInv a v none s) (hdt : 0 ≤ dt) :
    FadeInv a (v * fade_out_decay dt) none (s.tick dt) := by
  obtain ⟨hov, tgt, holdK, hvpos, hdisj⟩ := hs
  have holdK1 : s.tickHoldKeys dt = ∅ := by
    unfold HighlightState.tickHoldKeys
    rw [holdK]
    rfl
  have hrem : s.tickHoldRemaining dt a = 0 := by
    simp [HighlightState.tickHoldRemaining, holdK1]
  have hvpos2 : 0 < v * fade_out_decay dt := mul_pos hvpos (fade_out_decay_pos dt)
  refine ⟨?_, ?_, ?_, hvpos2, ?_⟩
  · rw [tick_hovered_node, hov]
  · rw [tick_target_set, tgt]
  · rw [tick_holdKeys, holdK1]
  · rcases hdisj with ⟨hcut, keys, val⟩ | ⟨hcut, keys⟩
    · have hval1 : s.tickNodeVal1 dt a = v := by
        simp [HighlightState.tickNodeVal1, tgt, val]
      have hval2 : s.tickNodeVal2 dt a = v * fade_out_decay dt := by
        unfold HighlightState.tickNodeVal2
        rw [if_neg (by simp [tgt]), if_pos (by rw [hrem]), hval1]
      by_cases hcut2 : 0.005 < v * fade_out_decay dt
      · refine Or.inl ⟨hcut2, ?_, ?_⟩
        · rw [tick_nodeKeys]
          unfold HighlightState.tickNodeKeys2 HighlightState.tickNodeKeys1
          rw [tgt, keys, Finset.union_empty, Finset.filter_singleton, if_pos]
          rw [hval2]
          simp [hcut2]
        · rw [tick_nodeVal, hval2]
      · refine Or.inr ⟨not_lt.mp hcut2, ?_⟩
        rw [tick_nodeKeys]
        unfold HighlightState.tickNodeKeys2 HighlightState.tickNodeKeys1
        rw [tgt, keys, Finset.union_empty, Finset.filter_singleton, if_neg]
        rw [hval2]
        simp [tgt]
        exact not_lt.mp hcut2
    · refine Or.inr ⟨?_, ?_⟩
      · have h1 : fade_out_decay dt ≤ 1 := fade_out_decay_le_one hdt
        have h2 : 0 < fade_out_decay dt := fade_out_decay_pos dt
        nlinarith
      · rw [tick_nodeKeys]
        unfold HighlightState.tickNodeKeys2 HighlightState.tickNodeKeys1
        rw [tgt, keys, Finset.union_empty]
        rfl

/-! ## Numeric bounds for the concrete fade runs -/

theorem fade_in_factor_one_thirtieth_gt : 0.005 < fade_in_factor (1 / 30) := by
  unfold fade_in_factor
  have h1 : (-6 : ℝ) * (1 / 30) = -(1 / 5) := by norm_num
  rw [h1, Real.exp_neg]
  have h2 : (1 / 5 : ℝ) + 1 ≤ Real.exp (1 / 5) := Real.add_one_le_exp (1 / 5)
  have h3 : (Real.exp (1 / 5))⁻¹ ≤ (6 / 5 : ℝ)⁻¹ := by
    apply inv_anti₀ (by norm_num)
    linarith
  have h4 : ((6 : ℝ) / 5)⁻¹ = 5 / 6 := by norm_num
  rw [h4] at h3
  linarith

theorem fade_in_factor_one_thirtieth_le : fade_in_factor (1 / 30) ≤ 1 / 5 := by
  unfold fade_in_factor
  have h := Real.add_one_le_exp (-6 * (1 / 30 : ℝ))
  linarith

theorem fade_out_decay_one_lt : fade_out_decay 1 < 0.0184 := by
  unfold fade_out_decay
  have h4 : Real.exp (-4 * 1) = Real.exp (-1) ^ 4 := by
    rw [← Real.exp_nat_mul]
    norm_num
  rw [h4]
  have h2 : Real.exp (-1) < 0.3678794412 := Real.exp_neg_one_lt_d9
  have h3 : (0 : ℝ) ≤ Real.exp (-1) := (Real.exp_pos _).le
  calc Real.exp (-1) ^ 4 < 0.3678794412 ^ 4 := by
        exact pow_lt_pow_left₀ h2 h3 (by norm_num)
    _ < 0.0184 := by norm_num

/-- After hovering node `0` (no edges), ticking `1/30` s and clearing the
hover, the engine sits in the fade-out scenario: node `0` tracked at
intensity `fade_in_factor (1/30)` with a full hold timer. -/
theorem run_hover_clear_fadeInv :
    FadeInv 0 (fade_in_factor (1 / 30)) (some MIN_HOLD_TIME)
      (((HighlightState.init.set_hover (some 0) []).tick (1 / 30)).set_hover none []) := by
  have ht : targetOf 0 ([] : List (ℕ × ℕ)) = {0} := by simp [targetOf]
  have hA : HighlightState.init.set_hover (some 0) [] =
      { hovered_node := some 0, target_set := {0}
        nodeKeys := ∅, nodeVal := fun _ => 0
        ringKeys := ∅, ringVal := fun _ => 0
        holdKeys := {0}, holdVal := fun i => if i ∈ ({0} : Finset ℕ) then MIN_HOLD_TIME else 0
        cached_max := 0 } := by
    unfold HighlightState.set_hover
    rw [if_neg (by simp [HighlightState.init])]
    simp [HighlightState.init, ht]
  rw [hA]
  set L : HighlightState :=
      { hovered_node := some 0, target_set := {0}
        nodeKeys := ∅, nodeVal := fun _ => 0
        ringKeys := ∅, ringVal := fun _ => 0
        holdKeys := {0}, holdVal := fun i => if i ∈ ({0} : Finset ℕ) then MIN_HOLD_TIME else 0
        cached_max := 0 } with hL
  have hBhov : (L.tick (1 / 30)).hovered_node = some 0 := rfl
  have hBtgt : (L.tick (1 / 30)).target_set = {0} := rfl
  have hBholdK : (L.tick (1 / 30)).holdKeys = {0} := by
    rw [tick_holdKeys]
    unfold HighlightState.tickHoldKeys
    rw [hL]
    rw [Finset.filter_singleton, if_pos]
    simp
  have hBholdV : (L.tick (1 / 30)).holdVal 0 = MIN_HOLD_TIME := by
    rw [tick_holdVal]
    unfold HighlightState.tickHoldVal
    rw [hL]
    simp
  have hBval : (L.tick (1 / 30)).nodeVal 0 = fade_in_factor (1 / 30) := by
    rw [tick_nodeVal]
    unfold HighlightState.tickNodeVal2
    rw [if_pos (show (0 : ℕ) ∈ L.target_set by rw [hL]; simp)]
    unfold HighlightState.tickNodeVal1
    rw [if_pos (by simp [hL])]
    unfold HighlightState.node_intensity
    simp [hL]
  have hBkeys : (L.tick (1 / 30)).nodeKeys = {0} := by
    rw [tick_nodeKeys]
    unfold HighlightState.tickNodeKeys2 HighlightState.tickNodeKeys1
    rw [hL]
    rw [show ((∅ : Finset ℕ) ∪ {0}) = {0} by simp, Finset.filter_singleton, if_pos]
    simp
  have hChov : ((L.tick (1 / 30)).set_hover none []).hovered_node = none ∧
      ((L.tick (1 / 30)).set_hover none []).target_set = ∅ ∧
      ((L.tick (1 / 30)).set_hover none []).nodeKeys = (L.tick (1 / 30)).nodeKeys ∧
      ((L.tick (1 / 30)).set_hover none []).nodeVal = (L.tick (1 / 30)).nodeVal ∧
      ((L.tick (1 / 30)).set_hover none []).holdKeys = (L.tick (1 / 30)).holdKeys ∧
      ((L.tick (1 / 30)).set_hover none []).holdVal = (L.tick (1 / 30)).holdVal := by
    unfold HighlightState.set_hover
    rw [if_neg (by rw [hBhov]; simp)]
    exact ⟨rfl, rfl, rfl, rfl, rfl, rfl⟩
  obtain ⟨h1, h2, h3, h4, h5, h6⟩ := hChov
  refine ⟨h1, h2, ⟨by rw [h5, hBholdK], by rw [h6, hBholdV]⟩, ?_, ?_⟩
  · have := fade_in_factor_one_thirtieth_gt
    linarith
  · exact Or.inl ⟨fade_in_factor_one_thirtieth_gt, by rw [h3, hBkeys], by rw [h4, hBval]⟩

/-- C3, counterexample: a reachable run: hover node `0` (no edges),
tick `1/30` s, clear the hover, tick `1` s.  The final tick decays node
`0`:s intensity to `(1 - e^{-1/5})·e^{-4} ≤ 0.005` and prunes the entry,
yet caches that positive value: `max_intensity()` is positive while the
intensity map is empty, so it differs from the maximum over still-tracked
handles (which is `0`). -/
theorem c3_cached_max_counterexample :
    (runOps HighlightState.init
        [HOp.hover (some 0) [], HOp.tick (1 / 30), HOp.hover none [], HOp.tick 1]).nodeKeys
      = ∅ ∧
    (runOps HighlightState.init
        [HOp.hover (some 0) [], HOp.tick (1 / 30), HOp.hover none [], HOp.tick 1]).max_intensity
      ≠ (runOps HighlightState.init
          [HOp.hover (some 0) [], HOp.tick (1 / 30), HOp.hover none [], HOp.tick 1]).nodeKeys.fold
            max 0
            (runOps HighlightState.init
              [HOp.hover (some 0) [], HOp.tick (1 / 30), HOp.hover none [], HOp.tick 1]).nodeVal := by
  have hrun : runOps HighlightState.init
      [HOp.hover (some 0) [], HOp.tick (1 / 30), HOp.hover none [], HOp.tick 1] =
      ((((HighlightState.init.set_hover (some 0) []).tick (1 / 30)).set_hover none []).tick 1) :=
    rfl
  rw [hrun]
  obtain ⟨hD, hDmax⟩ := tick_fadeInv_expire run_hover_clear_fadeInv
    fade_in_factor_one_thirtieth_gt
    (show MIN_HOLD_TIME - 1 ≤ 0 by unfold MIN_HOLD_TIME; norm_num)
  have hVpos : 0 < fade_in_factor (1 / 30) * fade_out_decay 1 := by
    have := fade_in_factor_one_thirtieth_gt
    exact mul_pos (by linarith) (fade_out_decay_pos 1)
  have hVle : fade_in_factor (1 / 30) * fade_out_decay 1 ≤ 0.005 := by
    have h1 := fade_in_factor_one_thirtieth_le
    have h2 := fade_out_decay_one_lt
    have h3 := fade_out_decay_pos 1
    have h4 := fade_in_factor_one_thirtieth_gt
    nlinarith
  obtain ⟨-, -, -, -, hdisj⟩ := hD
  have hkeys : ((((HighlightState.init.set_hover (some 0) []).tick (1 / 30)).set_hover
      none []).tick 1).nodeKeys = ∅ := by
    rcases hdisj with ⟨hc, -, -⟩ | ⟨-, hk⟩
    · linarith
    · exact hk
  refine ⟨hkeys, ?_⟩
  rw [hkeys, Finset.fold_empty]
  show (_ : HighlightState).cached_max ≠ 0
  rw [hDmax]
  exact ne_of_gt hVpos

/-! ## C2: freeze, then strict decay, then pruning -/

theorem decaySteps_zero (dt : ℝ) : decaySteps dt 0 = 0 := by
  simp [decaySteps]

theorem decaySteps_succ (dt : ℝ) (n : ℕ) :
    decaySteps dt (n + 1) =
      decaySteps dt n + (if MIN_HOLD_TIME ≤ ((n + 1 : ℕ) : ℝ) * dt then 1 else 0) := by
  unfold decaySteps
  rw [Finset.range_succ, Finset.filter_insert]
  split_ifs with h
  · rw [Finset.card_insert_of_not_mem (by simp)]
  · rfl

theorem decaySteps_eq_zero {dt : ℝ} (hdt : 0 ≤ dt) {n : ℕ}
    (h : (n : ℝ) * dt < MIN_HOLD_TIME) : decaySteps dt n = 0 := by
  unfold decaySteps
  rw [Finset.card_eq_zero, Finset.filter_eq_empty_iff]
  intro i hi
  rw [Finset.mem_range] at hi
  rw [not_le]
  have h1 : ((i + 1 : ℕ) : ℝ) * dt ≤ (n : ℝ) * dt := by
    apply mul_le_mul_of_nonneg_right _ hdt
    exact_mod_cast Nat.succ_le_of_lt hi
  linarith

theorem FadeInv.node_intensity_eq {a : ℕ} {v : ℝ} {hold : Option ℝ}
    {s : HighlightState} (h : FadeInv a v hold s) :
    s.node_intensity a = if 0.005 < v then v else 0 := by
  rcases h.2.2.2.2 with ⟨hc, hk, hval⟩ | ⟨hc, hk⟩
  · rw [if_pos hc]
    unfold HighlightState.node_intensity
    rw [hk]
    simp [hval]
  · rw [if_neg (not_lt.mpr hc)]
    unfold HighlightState.node_intensity
    rw [hk]
    simp

/-- Shape of the fade-out run after `n` constant-duration ticks: while
the accumulated time stays below the hold time, the hold timer keeps
counting down and the intensity is `v` untouched; from the tick on which
the accumulated time reaches the hold time, each tick multiplies the
intensity by `fade_out_decay dt` (and the entry is pruned at `0.005`). -/
theorem c2_fade_invariant (a : ℕ) (v dt : ℝ) (hdt : 0 < dt) (hv : 0.005 < v) (n : ℕ) :
    FadeInv a (v * fade_out_decay dt ^ decaySteps dt n)
      (if (n : ℝ) * dt < MIN_HOLD_TIME then some (MIN_HOLD_TIME - n * dt) else none)
      (tickIter (fadeStart a v) dt n) := by
  induction n with
  | zero =>
    rw [decaySteps_zero, pow_zero, mul_one]
    rw [if_pos (by unfold MIN_HOLD_TIME; norm_num)]
    simp only [Nat.cast_zero, zero_mul, sub_zero]
    exact fadeStart_fadeInv hv
  | succ n ih =>
    by_cases hfrozen : ((n + 1 : ℕ) : ℝ) * dt < MIN_HOLD_TIME
    · have hn : (n : ℝ) * dt < MIN_HOLD_TIME := by
        have : (n : ℝ) * dt ≤ ((n + 1 : ℕ) : ℝ) * dt := by
          apply mul_le_mul_of_nonneg_right _ hdt.le
          exact_mod_cast Nat.le_succ n
        linarith
      rw [if_pos hn] at ih
      have hds : decaySteps dt (n + 1) = 0 := decaySteps_eq_zero hdt.le hfrozen
      have hdsn : decaySteps dt n = 0 := decaySteps_eq_zero hdt.le hn
      rw [hdsn, pow_zero, mul_one] at ih
      have hstep := tick_fadeInv_hold ih hv
        (show 0 < MIN_HOLD_TIME - (n : ℝ) * dt - dt by push_cast at hfrozen; linarith)
      rw [hds, pow_zero, mul_one]
      rw [if_pos hfrozen]
      have harg : MIN_HOLD_TIME - (n : ℝ) * dt - dt = MIN_HOLD_TIME - ((n + 1 : ℕ) : ℝ) * dt := by
        push_cast
        ring
      rw [harg] at hstep
      exact hstep.1
    · have hds : decaySteps dt (n + 1) = decaySteps dt n + 1 := by
        rw [decaySteps_succ, if_pos (not_lt.mp hfrozen)]
      rw [if_neg hfrozen, hds, pow_succ, ← mul_assoc]
      by_cases hn : (n : ℝ) * dt < MIN_HOLD_TIME
      · rw [if_pos hn] at ih
        have hdsn : decaySteps dt n = 0 := decaySteps_eq_zero hdt.le hn
        rw [hdsn, pow_zero, mul_one] at ih
        have hstep := tick_fadeInv_expire ih hv
          (show MIN_HOLD_TIME - (n : ℝ) * dt - dt ≤ 0 by
            rw [not_lt] at hfrozen
            push_cast at hfrozen
            linarith)
        rw [hdsn, pow_zero, mul_one]
        exact hstep.1
      · rw [if_neg hn] at ih
        exact tick_fadeInv_none ih hdt.le

/-- C2, amended: start from the fade-out scenario state (hover just
cleared, node `a` tracked at `v > 0.005`, hold timer freshly reset to
`MIN_HOLD_TIME`) and apply `n` ticks of duration `dt > 0`.  The tracked
intensity is frozen at `v` while the accumulated time `n·dt` stays below
the hold time; from the tick on which the accumulated time **reaches**
the hold time it is multiplied by `fade_out_decay dt = e^{-4·dt}` each
tick — a strict decrease — and once it reaches `<= 0.005` the entry is
pruned and `node_intensity` returns exactly `0`. -/
theorem c2_amended_fadeout (a : ℕ) (v dt : ℝ) (n : ℕ) (hdt : 0 < dt) (hv : 0.005 < v) :
    ((tickIter (fadeStart a v) dt n).node_intensity a =
      if 0.005 < v * fade_out_decay dt ^ decaySteps dt n
      then v * fade_out_decay dt ^ decaySteps dt n else 0) ∧
    v * fade_out_decay dt ^ decaySteps dt n =
      v * Real.exp (-4 * dt * (decaySteps dt n : ℕ)) ∧
    ((n : ℝ) * dt < MIN_HOLD_TIME → (tickIter (fadeStart a v) dt n).node_intensity a = v) ∧
    (MIN_HOLD_TIME ≤ ((n + 1 : ℕ) : ℝ) * dt →
      0.005 < v * fade_out_decay dt ^ decaySteps dt (n + 1) →
      (tickIter (fadeStart a v) dt (n + 1)).node_intensity a <
        (tickIter (fadeStart a v) dt n).node_intensity a) := by
  have hfo0 : 0 < fade_out_decay dt := fade_out_decay_pos dt
  have hfo1 : fade_out_decay dt < 1 := by
    unfold fade_out_decay
    exact Real.exp_lt_one_iff.mpr (by nlinarith)
  have hform : ∀ m : ℕ, (tickIter (fadeStart a v) dt m).node_intensity a =
      if 0.005 < v * fade_out_decay dt ^ decaySteps dt m
      then v * fade_out_decay dt ^ decaySteps dt m else 0 :=
    fun m => (c2_fade_invariant a v dt hdt hv m).node_intensity_eq
  refine ⟨hform n, ?_, ?_, ?_⟩
  · unfold fade_out_decay
    rw [← Real.exp_nat_mul]
    ring_nf
  · intro hfrozen
    rw [hform n, decaySteps_eq_zero hdt.le hfrozen, pow_zero, mul_one, if_pos hv]
  · intro hreach hcut
    have hds : decaySteps dt (n + 1) = decaySteps dt n + 1 := by
      rw [decaySteps_succ, if_pos hreach]
    have hvn : 0 < v * fade_out_decay dt ^ decaySteps dt n := by positivity
    have hlt : v * fade_out_decay dt ^ decaySteps dt (n + 1) <
        v * fade_out_decay dt ^ decaySteps dt n := by
      rw [hds, pow_succ, ← mul_assoc]
      nlinarith
    have hcutn : 0.005 < v * fade_out_decay dt ^ decaySteps dt n := lt_trans hcut hlt
    rw [hform n, hform (n + 1), if_pos hcut, if_pos hcutn]
    exact hlt

/-- Witness for the amended C2: `v = 1`, `dt = 1`, one tick. -/
theorem c2_amended_fadeout_witness :
    (0 : ℝ) < 1 ∧ (0.005 : ℝ) < 1 ∧
    (((tickIter (fadeStart 0 1) 1 1).node_intensity 0 =
        if 0.005 < 1 * fade_out_decay 1 ^ decaySteps 1 1
        then 1 * fade_out_decay 1 ^ decaySteps 1 1 else 0) ∧
      1 * fade_out_decay 1 ^ decaySteps 1 1 =
        1 * Real.exp (-4 * 1 * (decaySteps 1 1 : ℕ)) ∧
      ((1 : ℕ) * (1 : ℝ) < MIN_HOLD_TIME →
        (tickIter (fadeStart 0 1) 1 1).node_intensity 0 = 1) ∧
      (MIN_HOLD_TIME ≤ ((1 + 1 : ℕ) : ℝ) * 1 →
        0.005 < 1 * fade_out_decay 1 ^ decaySteps 1 (1 + 1) →
        (tickIter (fadeStart 0 1) 1 (1 + 1)).node_intensity 0 <
          (tickIter (fadeStart 0 1) 1 1).node_intensity 0)) :=
  ⟨by norm_num, by norm_num, c2_amended_fadeout 0 1 1 1 (by norm_num) (by norm_num)⟩

/-- C2, counterexample: two ticks of `0.06` s accumulate exactly
`0.12` s — they do **not exceed** the `0.12` s hold timer, so the claim
as stated predicts the intensity is still untouched; but the code with its
timer check is `> 0.0`, so the second tick already decays the stored
`1/2` to `e^{-0.24}/2 ≠ 1/2`. -/
theorem c2_hold_boundary_counterexample :
    ¬ (MIN_HOLD_TIME < 2 * (0.06 : ℝ)) ∧
    (tickIter (fadeStart 0 (1 / 2)) 0.06 2).node_intensity 0 ≠ 1 / 2 := by
  constructor
  · unfold MIN_HOLD_TIME
    norm_num
  · have h0 : FadeInv 0 (1 / 2) (some MIN_HOLD_TIME) (fadeStart 0 (1 / 2)) :=
      fadeStart_fadeInv (by norm_num)
    have h1 := tick_fadeInv_hold h0 (by norm_num)
      (show 0 < MIN_HOLD_TIME - (0.06 : ℝ) by unfold MIN_HOLD_TIME; norm_num)
    have h2 := tick_fadeInv_expire h1.1 (by norm_num)
      (show MIN_HOLD_TIME - (0.06 : ℝ) - 0.06 ≤ 0 by unfold MIN_HOLD_TIME; norm_num)
    have hfo : 0.76 ≤ fade_out_decay 0.06 := by
      unfold fade_out_decay
      have := Real.add_one_le_exp (-4 * (0.06 : ℝ))
      linarith
    have hfo1 : fade_out_decay 0.06 < 1 := by
      unfold fade_out_decay
      exact Real.exp_lt_one_iff.mpr (by norm_num)
    have hval := h2.1.node_intensity_eq
    have hS2 : tickIter (fadeStart 0 (1 / 2)) 0.06 2 =
        ((fadeStart 0 (1 / 2)).tick 0.06).tick 0.06 := rfl
    rw [hS2, hval, if_pos (by linarith)]
    intro hc
    nlinarith

/-! ## C6: hovering one end of the only edge never lights the third node -/

theorem node_intensity_eq_zero_of_not_mem {s : HighlightState} {c : ℕ}
    (hc : c ∉ s.nodeKeys) : s.node_intensity c = 0 := by
  unfold HighlightState.node_intensity
  rw [if_neg hc]

theorem edge_intensity_eq_zero_right {s : HighlightState} {x c : ℕ}
    (hc : s.node_intensity c = 0) : s.edge_intensity x c = 0 := by
  unfold HighlightState.edge_intensity
  rw [hc, mul_zero, Real.sqrt_zero]

theorem edge_intensity_eq_zero_left {s : HighlightState} {x c : ℕ}
    (hc : s.node_intensity c = 0) : s.edge_intensity c x = 0 := by
  unfold HighlightState.edge_intensity
  rw [hc, zero_mul, Real.sqrt_zero]

theorem tick_nodeKeys_subset (s : HighlightState) (dt : ℝ) :
    (s.tick dt).nodeKeys ⊆ s.nodeKeys ∪ s.target_set :=
  Finset.filter_subset _ _

theorem applyTicks_target_and_keys (dts : List ℝ) (s : HighlightState) :
    (applyTicks s dts).target_set = s.target_set ∧
    (applyTicks s dts).hovered_node = s.hovered_node ∧
    (applyTicks s dts).nodeKeys ⊆ s.nodeKeys ∪ s.target_set := by
  induction dts generalizing s with
  | nil => exact ⟨rfl, rfl, Finset.subset_union_left⟩
  | cons dt rest ih =>
    obtain ⟨h1, h2, h3⟩ := ih (s.tick dt)
    refine ⟨by rw [show applyTicks s (dt :: rest) = applyTicks (s.tick dt) rest from rfl,
        h1, tick_target_set], by rw [show applyTicks s (dt :: rest) = applyTicks (s.tick dt) rest from rfl,
        h2, tick_hovered_node], ?_⟩
    rw [show applyTicks s (dt :: rest) = applyTicks (s.tick dt) rest from rfl]
    refine h3.trans ?_
    rw [tick_target_set]
    exact Finset.union_subset
      ((tick_nodeKeys_subset s dt).trans (subset_refl _)) Finset.subset_union_right

theorem tick_node_intensity_target {s : HighlightState} {dt : ℝ} {i : ℕ}
    (hi : i ∈ s.target_set) :
    (s.tick dt).node_intensity i =
      s.node_intensity i + (1 - s.node_intensity i) * fade_in_factor dt := by
  have hmem : i ∈ s.tickNodeKeys2 dt := by
    unfold HighlightState.tickNodeKeys2
    exact Finset.mem_filter.mpr
      ⟨Finset.mem_union_right _ hi, Or.inl hi⟩
  unfold HighlightState.node_intensity
  rw [tick_nodeKeys, tick_nodeVal, if_pos hmem]
  unfold HighlightState.tickNodeVal2
  rw [if_pos hi]
  unfold HighlightState.tickNodeVal1
  rw [if_pos hi]
  rfl

theorem setHover_single_edge_target (a b : ℕ) :
    (HighlightState.init.set_hover (some a) [(a, b)]).target_set = {a, b} := by
  have ht : targetOf a [(a, b)] = {a, b} := by
    simp [targetOf]
  unfold HighlightState.set_hover
  rw [if_neg (by simp [HighlightState.init])]
  exact ht

theorem c6_fadein_invariant (a b : ℕ) (dt : ℝ) (n : ℕ) :
    (tickIter (HighlightState.init.set_hover (some a) [(a, b)]) dt n).hovered_node = some a ∧
    (tickIter (HighlightState.init.set_hover (some a) [(a, b)]) dt n).target_set = {a, b} ∧
    (tickIter (HighlightState.init.set_hover (some a) [(a, b)]) dt n).node_intensity a =
      1 - Real.exp (-6 * dt) ^ n ∧
    (tickIter (HighlightState.init.set_hover (some a) [(a, b)]) dt n).node_intensity b =
      1 - Real.exp (-6 * dt) ^ n := by
  induction n with
  | zero =>
    have hkeys : (HighlightState.init.set_hover (some a) [(a, b)]).nodeKeys = ∅ := rfl
    refine ⟨rfl, setHover_single_edge_target a b, ?_, ?_⟩
    all_goals
      rw [pow_zero,
        show tickIter (HighlightState.init.set_hover (some a) [(a, b)]) dt 0 =
          HighlightState.init.set_hover (some a) [(a, b)] from rfl,
        node_intensity_eq_zero_of_not_mem (by rw [hkeys]; simp)]
      norm_num
  | succ n ih =>
    obtain ⟨hov, tgt, ia, ib⟩ := ih
    have hstep : ∀ i ∈ (tickIter (HighlightState.init.set_hover (some a) [(a, b)]) dt n).target_set,
        (tickIter (HighlightState.init.set_hover (some a) [(a, b)]) dt (n + 1)).node_intensity i =
          (tickIter (HighlightState.init.set_hover (some a) [(a, b)]) dt n).node_intensity i +
            (1 - (tickIter (HighlightState.init.set_hover (some a) [(a, b)]) dt n).node_intensity i) *
              fade_in_factor dt :=
      fun i hi => tick_node_intensity_target hi
  -- fixup below
    refine ⟨?_, ?_, ?_, ?_⟩
    · rw [show tickIter (HighlightState.init.set_hover (some a) [(a, b)]) dt (n + 1) =
          (tickIter (HighlightState.init.set_hover (some a) [(a, b)]) dt n).tick dt from rfl,
        tick_hovered_node, hov]
    · rw [show tickIter (HighlightState.init.set_hover (some a) [(a, b)]) dt (n + 1) =
          (tickIter (HighlightState.init.set_hover (some a) [(a, b)]) dt n).tick dt from rfl,
        tick_target_set, tgt]
    · rw [hstep a (by rw [tgt]; exact Finset.mem_insert_self a _), ia]
      unfold fade_in_factor
      ring
    · rw [hstep b (by rw [tgt]; simp), ib]
      unfold fade_in_factor
      ring

/-- C6: for the graph `[a, b, c]` with the single edge `a-b` (all
distinct), hovering `a` makes the target set exactly `{a, b}`; under any
subsequent tick sequence `c`:s node intensity and every edge intensity
touching `c` stay `0`; and under `n` ticks of fixed `dt > 0` the edge
intensity of `a-b` equals `1 - e^{-6·dt·n}`, strictly increases with each
tick, and tends to `1`. -/
theorem c6_hover_targets_only_neighbors (a b c : ℕ) (dt : ℝ) (dts : List ℝ) (n : ℕ)
    (hac : a ≠ c) (hbc : b ≠ c) (hdt : 0 < dt) :
    (HighlightState.init.set_hover (some a) [(a, b)]).target_set = {a, b} ∧
    (applyTicks (HighlightState.init.set_hover (some a) [(a, b)]) dts).node_intensity c = 0 ∧
    (applyTicks (HighlightState.init.set_hover (some a) [(a, b)]) dts).edge_intensity a c = 0 ∧
    (applyTicks (HighlightState.init.set_hover (some a) [(a, b)]) dts).edge_intensity c a = 0 ∧
    (applyTicks (HighlightState.init.set_hover (some a) [(a, b)]) dts).edge_intensity b c = 0 ∧
    (applyTicks (HighlightState.init.set_hover (some a) [(a, b)]) dts).edge_intensity c b = 0 ∧
    (tickIter (HighlightState.init.set_hover (some a) [(a, b)]) dt n).edge_intensity a b =
      1 - Real.exp (-6 * dt) ^ n ∧
    (tickIter (HighlightState.init.set_hover (some a) [(a, b)]) dt n).edge_intensity a b <
      (tickIter (HighlightState.init.set_hover (some a) [(a, b)]) dt (n + 1)).edge_intensity a b ∧
    Filter.Tendsto
      (fun m => (tickIter (HighlightState.init.set_hover (some a) [(a, b)]) dt m).edge_intensity a b)
      Filter.atTop (nhds 1) := by
  have htgt := setHover_single_edge_target a b
  have hczero : (applyTicks (HighlightState.init.set_hover (some a) [(a, b)]) dts).node_intensity c = 0 := by
    obtain ⟨-, -, hsub⟩ := applyTicks_target_and_keys dts
      (HighlightState.init.set_hover (some a) [(a, b)])
    apply node_intensity_eq_zero_of_not_mem
    intro hc
    have := hsub hc
    rw [htgt] at this
    have hinit : (HighlightState.init.set_hover (some a) [(a, b)]).nodeKeys = ∅ := by
      unfold HighlightState.set_hover
      rw [if_neg (by simp [HighlightState.init])]
      rfl
    rw [hinit] at this
    simp at this
    rcases this with h | h
    · exact hac h.symm
    · exact hbc h.symm
  have hexp0 : 0 < Real.exp (-6 * dt) := Real.exp_pos _
  have hexp1 : Real.exp (-6 * dt) < 1 := Real.exp_lt_one_iff.mpr (by nlinarith)
  have hedge : ∀ m : ℕ,
      (tickIter (HighlightState.init.set_hover (some a) [(a, b)]) dt m).edge_intensity a b =
        1 - Real.exp (-6 * dt) ^ m := by
    intro m
    obtain ⟨-, -, ia, ib⟩ := c6_fadein_invariant a b dt m
    unfold HighlightState.edge_intensity
    rw [ia, ib]
    have hnn : 0 ≤ 1 - Real.exp (-6 * dt) ^ m := by
      have hle : Real.exp (-6 * dt) ^ m ≤ 1 := pow_le_one₀ hexp0.le hexp1.le
      linarith
    exact Real.sqrt_mul_self hnn
  refine ⟨htgt, hczero, edge_intensity_eq_zero_right hczero,
    edge_intensity_eq_zero_left hczero, edge_intensity_eq_zero_right hczero,
    edge_intensity_eq_zero_left hczero, hedge n, ?_, ?_⟩
  · rw [hedge n, hedge (n + 1)]
    have hpow : Real.exp (-6 * dt) ^ (n + 1) < Real.exp (-6 * dt) ^ n := by
      rw [pow_succ]
      nlinarith [pow_pos hexp0 n]
    linarith
  · have hlim : Filter.Tendsto (fun m : ℕ => Real.exp (-6 * dt) ^ m)
        Filter.atTop (nhds 0) :=
      tendsto_pow_atTop_nhds_zero_of_lt_one hexp0.le hexp1
    have := Filter.Tendsto.const_sub (1 : ℝ) hlim
    rw [sub_zero] at this
    exact this.congr fun m => (hedge m).symm

/-- Witness for C6 at `a = 0`, `b = 1`, `c = 2`, `dt = 1`, one recorded
tick, `n = 0`. -/
theorem c6_hover_targets_only_neighbors_witness :
    ((0 : ℕ) ≠ 2 ∧ (1 : ℕ) ≠ 2 ∧ (0 : ℝ) < 1) ∧
    ((HighlightState.init.set_hover (some 0) [(0, 1)]).target_set = {0, 1} ∧
      (applyTicks (HighlightState.init.set_hover (some 0) [(0, 1)]) [1]).node_intensity 2 = 0 ∧
      (applyTicks (HighlightState.init.set_hover (some 0) [(0, 1)]) [1]).edge_intensity 0 2 = 0 ∧
      (applyTicks (HighlightState.init.set_hover (some 0) [(0, 1)]) [1]).edge_intensity 2 0 = 0 ∧
      (applyTicks (HighlightState.init.set_hover (some 0) [(0, 1)]) [1]).edge_intensity 1 2 = 0 ∧
      (applyTicks (HighlightState.init.set_hover (some 0) [(0, 1)]) [1]).edge_intensity 2 1 = 0 ∧
      (tickIter (HighlightState.init.set_hover (some 0) [(0, 1)]) 1 0).edge_intensity 0 1 =
        1 - Real.exp (-6 * 1) ^ 0 ∧
      (tickIter (HighlightState.init.set_hover (some 0) [(0, 1)]) 1 0).edge_intensity 0 1 <
        (tickIter (HighlightState.init.set_hover (some 0) [(0, 1)]) 1 (0 + 1)).edge_intensity 0 1 ∧
      Filter.Tendsto
        (fun m => (tickIter (HighlightState.init.set_hover (some 0) [(0, 1)]) 1 m).edge_intensity 0 1)
        Filter.atTop (nhds 1)) :=
  ⟨⟨by norm_num, by norm_num, by norm_num⟩,
    c6_hover_targets_only_neighbors 0 1 2 1 [1] 0 (by norm_num) (by norm_num) (by norm_num)⟩

end ForceGraph
